import Mathlib

/-!
Shallow embedding of the rusty-arb cross-venue arbitrage engine.

Conventions of the embedding:
* Rust `f64` configuration values and prices are modelled as exact rationals
  (`ℚ`); the source's floating-point rounding is idealized away, as the spec's
  own testable properties are stated "within floating-point tolerance".
* Machine integers are `Nat` with explicit `% 2^w` where the source truncates.
* Fallible paths return `Option` or an explicit result type.
* Async effects (awaits, sleeps, log lines, permit acquisition/release) are
  made visible as explicit trace events produced by the modelled function.
-/

namespace RustyArb

/-- Abstract error values (Rust `anyhow::Error` erases the concrete type). -/
abbrev Err := Nat

/-! ## execution.rs — ExecutionManager / ExecutionPermit

The source wraps a `tokio::sync::Semaphore` created with `max_concurrent`
permits; `try_start` is a non-blocking `try_acquire_owned`.  We model the
semaphore by its count of available permits. -/

/-- Model of `ExecutionManager`: the state of its semaphore, i.e. the number
of currently available permits. -/
structure ExecutionManager where
  available : Nat
deriving DecidableEq, Repr

/-- `ExecutionManager::new(max_concurrent)`. -/
def ExecutionManager.new (max_concurrent : Nat) : ExecutionManager :=
  ⟨max_concurrent⟩

/-- Model of `ExecutionPermit` (an RAII token; carries no data). -/
structure ExecutionPermit where
deriving DecidableEq, Repr

/-- `ExecutionManager::try_start`: non-blocking acquire.  Returns `none`
immediately when no permit is available, otherwise a permit together with the
manager state after the acquire. -/
def ExecutionManager.try_start (m : ExecutionManager) :
    Option ExecutionPermit × ExecutionManager :=
  if m.available = 0 then (none, m)
  else (some ⟨⟩, ⟨m.available - 1⟩)

/-- Dropping an `ExecutionPermit` returns its permit to the semaphore
(`OwnedSemaphorePermit`'s `Drop`). -/
def ExecutionManager.releasePermit (m : ExecutionManager) : ExecutionManager :=
  ⟨m.available + 1⟩

/-! A small transition system over the governor, tracking how many permits are
currently held, to state the concurrency invariant of the spec. -/

/-- Governor system state: the manager plus the number of permits currently
held by clients. -/
structure GovSys where
  manager : ExecutionManager
  held : Nat
deriving DecidableEq, Repr

/-- The two things a client can do with the governor: attempt a non-blocking
acquire, or drop one of the permits it holds. -/
inductive GovOp where
  | tryStart
  | releaseOne
deriving DecidableEq, Repr

/-- Initial governor system: a fresh manager of the given capacity, no permit
held. -/
def GovSys.init (max_concurrent : Nat) : GovSys :=
  ⟨ExecutionManager.new max_concurrent, 0⟩

/-- One step of the governor system.  A `releaseOne` with no permit held is a
no-op (no client exists that could drop a permit). -/
def govStep (s : GovSys) : GovOp → GovSys
  | .tryStart =>
    match s.manager.try_start with
    | (none, m') => ⟨m', s.held⟩
    | (some _, m') => ⟨m', s.held + 1⟩
  | .releaseOne =>
    if s.held = 0 then s
    else ⟨s.manager.releasePermit, s.held - 1⟩

/-- Run a sequence of governor operations. -/
def govRun (s : GovSys) (ops : List GovOp) : GovSys :=
  ops.foldl govStep s

/-! ## Action types (executors/univ3.rs, executors/hyperliquid.rs,
executors/arbitrage.rs) -/

/-- Rust `alloy` `Address` values, abstracted to naturals. -/
abbrev Address := Nat

/-- `UniV3SwapAction` from executors/univ3.rs.  `amount_in`/`amount_out_min`
are `U256` values, modelled as naturals. -/
structure UniV3SwapAction where
  token_in : Address
  token_out : Address
  fee : Nat
  amount_in : Nat
  amount_out_min : Nat
deriving DecidableEq, Repr

/-- `HyperliquidOrderAction` from executors/hyperliquid.rs.  `size` and
`limit_px` are `f64`, modelled as rationals. -/
structure HyperliquidOrderAction where
  coin : String
  is_buy : Bool
  size : ℚ
  limit_px : ℚ
deriving DecidableEq, Repr

/-- `ArbitrageAction` from executors/arbitrage.rs. -/
structure ArbitrageAction where
  dex_swap : UniV3SwapAction
  hl_order : HyperliquidOrderAction
  direction : String
deriving DecidableEq, Repr

/-! ## executors/arbitrage.rs — ArbitrageExecutor::execute

The composite executor's control flow is pure once the outcomes of the two
leg calls are given; the legs themselves are venue wire clients (network
effects), so we parametrize by their outcomes: `none` = the leg's
`execute` returned `Ok(())`, `some e` = it returned `Err(e)`.  The function
produces the full observable outcome of one `execute` call: the ordered trace
of effect steps, the ordered log lines, the returned `Result`, and the
manager state after the call. -/

/-- Observable effect steps of one `ArbitrageExecutor::execute` call, in
program order.  `releasePermit` is the RAII drop of `_permit` at scope exit. -/
inductive ExecStep where
  | acquirePermit
  | dexExec
  | cexExec
  | sleep (secs : Nat)
  | releasePermit
deriving DecidableEq, Repr

/-- Log lines emitted by `ArbitrageExecutor::execute`, by their distinguishing
tag.  `hlFailedOneSided` carries the "⚠️ ONE-SIDED!" marker of the source's
CEX-failure log line; `dexFailed` is the plain DEX-failure line. -/
inductive LogEvent where
  | skippedBusy (direction : String)
  | started (direction : String)
  | dexFailed (e : Err)
  | hlFailedOneSided (e : Err)
  | pnlReport
deriving DecidableEq, Repr

/-- The Rust `Result<(), anyhow::Error>` returned by an executor. -/
inductive RustResult where
  | ok
  | err (e : Err)
deriving DecidableEq, Repr

/-- Full observable outcome of one `ArbitrageExecutor::execute` call. -/
structure ExecOutcome where
  steps : List ExecStep
  logs : List LogEvent
  result : RustResult
  managerAfter : ExecutionManager
deriving DecidableEq, Repr

/-- `ArbitrageExecutor::execute`, with the two legs' network outcomes as
parameters (`dexRes`/`cexRes`: `none` = leg succeeded, `some e` = leg failed
with error `e`).  Mirrors the source's control flow line by line:
permit acquire (early `Ok` return on `None`), DEX leg (early `Err` return),
CEX leg (early `Err` return), PnL log, cooldown sleep, RAII permit release at
every scope exit. -/
def ArbitrageExecutor.execute (m : ExecutionManager) (action : ArbitrageAction)
    (dexRes cexRes : Option Err) (cooldown_secs : Nat) : ExecOutcome :=
  match m.try_start with
  | (none, m') =>
    { steps := []
      logs := [.skippedBusy action.direction]
      result := .ok
      managerAfter := m' }
  | (some _, m') =>
    match dexRes with
    | some e =>
      { steps := [.acquirePermit, .dexExec, .releasePermit]
        logs := [.started action.direction, .dexFailed e]
        result := .err e
        managerAfter := m'.releasePermit }
    | none =>
      match cexRes with
      | some e =>
        { steps := [.acquirePermit, .dexExec, .cexExec, .releasePermit]
          logs := [.started action.direction, .hlFailedOneSided e]
          result := .err e
          managerAfter := m'.releasePermit }
      | none =>
        { steps := [.acquirePermit, .dexExec, .cexExec,
                    .sleep cooldown_secs, .releasePermit]
          logs := [.started action.direction, .pnlReport]
          result := .ok
          managerAfter := m'.releasePermit }

/-! ## Numeric cast helpers for the source's Rust casts -/

/-- Rust `f64::round`: round half away from zero. -/
def rustRound (x : ℚ) : ℤ :=
  if 0 ≤ x then ⌊x + 1/2⌋ else -⌊-x + 1/2⌋

/-- Rust `expr as u64` / `as u128` on an `f64`: truncate toward zero,
saturating at the bounds of the target type. -/
def rustCastToUnsigned (bits : Nat) (x : ℚ) : Nat :=
  min (Int.toNat ⌊x⌋) (2 ^ bits - 1)

/-! ## collectors/uniswapv3.rs and collectors/hyperliquid.rs — event payloads -/

/-- `UniV3PoolState`.  `sqrt_price` is a `U256` (modelled as a natural,
invariantly `< 2^256`); `fee` is `u32` in ppm; the decimals are `u8`. -/
structure UniV3PoolState where
  sqrt_price : Nat
  fee : Nat
  token_a_decimals : Nat
  token_b_decimals : Nat
deriving DecidableEq, Repr

/-- One order-book level of a Hyperliquid BBO message
(`hyperliquid_rust_sdk::BookLevel`, external to the repo).  The source holds
the price as a string and parses it with `px.parse::<f64>().ok()`; we model
the field by the outcome of that parse: `none` = the string does not parse as
a number, `some q` = it parses to the value `q`. -/
structure BookLevel where
  px : Option ℚ
deriving DecidableEq, Repr

/-- `HyperliquidBbo` from collectors/hyperliquid.rs. -/
structure HyperliquidBbo where
  coin : String
  levels : List (Option BookLevel)
  time : Nat
deriving DecidableEq, Repr

/-! ## strategies/hype_usdc_cross_arbitrage.rs -/

/-- The `Event` enum of the strategy module. -/
inductive Event where
  | PoolUpdate (state : UniV3PoolState)
  | HyperliquidBbo (bbo : HyperliquidBbo)
deriving DecidableEq, Repr

/-- The `HypeUsdcCrossArbitrage` strategy struct: two optional per-venue
snapshot slots plus the immutable fee/order configuration. -/
structure HypeUsdcCrossArbitrage where
  hyperliquid_bbo : Option HyperliquidBbo
  hyperswap_state : Option UniV3PoolState
  order_size_usd : ℚ
  hl_maker_fee_bps : ℚ
  dex_gas_fee_usd : ℚ
  min_profit_bps : ℚ
  slippage_bps : ℚ
  usdc_address : Address
  hype_address : Address
  dex_fee : Nat
deriving DecidableEq, Repr

namespace HypeUsdcCrossArbitrage

/-- `calculate_dex_bid_ask`.  The source serializes the `U256` square-root
price to 32 big-endian bytes and rebuilds a `u128` from bytes 16..31, i.e. it
keeps only the low 128 bits: `sqrt_price % 2^128`.  It then squares, undoes
the 2^96 scale, applies the decimal adjustment `10^(decA − decB)` and half
the ppm fee per side. -/
def calculate_dex_bid_ask (s : HypeUsdcCrossArbitrage) (state : UniV3PoolState) :
    Option (ℚ × ℚ) :=
  let sqrt_price : ℚ := ((state.sqrt_price % 2 ^ 128 : Nat) : ℚ)
  let q96 : ℚ := 2 ^ 96
  let base_price : ℚ := (sqrt_price / q96) ^ 2
  let decimal_adjustment : ℚ :=
    (10 : ℚ) ^ ((state.token_a_decimals : ℤ) - (state.token_b_decimals : ℤ))
  let mid_price := base_price * decimal_adjustment
  let fee_fraction : ℚ := (state.fee : ℚ) / 1000000
  let bid := mid_price * (1 - fee_fraction / 2)
  let ask := mid_price * (1 + fee_fraction / 2)
  some (bid, ask)

/-- `get_hyperliquid_prices`: requires at least two book levels; reads level 0
as the raw bid and level 1 as the raw ask (each an `Option` that must be
present, whose price string must parse); applies the maker fee in bps
symmetrically. -/
def get_hyperliquid_prices (s : HypeUsdcCrossArbitrage) (bbo : HyperliquidBbo) :
    Option (ℚ × ℚ) :=
  if bbo.levels.length < 2 then none
  else
    match bbo.levels[0]?, bbo.levels[1]? with
    | some (some l0), some (some l1) =>
      match l0.px, l1.px with
      | some raw_bid, some raw_ask =>
        let hl_maker_fee := s.hl_maker_fee_bps / 10000
        let bid := raw_bid * (1 - hl_maker_fee)
        let ask := raw_ask * (1 + hl_maker_fee)
        some (bid, ask)
      | _, _ => none
    | _, _ => none

/-- `calculate_net_profit_bps`: gross spread percentage minus the flat gas fee
normalized by notional, in basis points. -/
def calculate_net_profit_bps (s : HypeUsdcCrossArbitrage)
    (buy_price sell_price : ℚ) : ℚ :=
  let gross_profit_pct := (sell_price - buy_price) / buy_price
  let gas_fee_pct := s.dex_gas_fee_usd / s.order_size_usd
  let net_profit_pct := gross_profit_pct - gas_fee_pct
  net_profit_pct * 10000

/-- `generate_action`: sizes the trade (`orderSizeUsd / dexPrice` rounded to
4 decimals; raw units via `as u64` / `as u128` casts), then builds the two
legs.  `buy_dex = true`: swap USDC→HYPE on the DEX and sell on Hyperliquid at
`hl_price·(1 − slippage)`; otherwise swap HYPE→USDC and buy on Hyperliquid at
`hl_price·(1 + slippage)`.  Both branches submit the DEX leg with
`amount_out_min = 0` (`U256::ZERO`). -/
def generate_action (s : HypeUsdcCrossArbitrage) (buy_dex : Bool)
    (dex_price hl_price : ℚ) : ArbitrageAction :=
  let hype_amount_raw := s.order_size_usd / dex_price
  let hype_amount : ℚ := (rustRound (hype_amount_raw * 10000) : ℚ) / 10000
  let usdc_raw : Nat := rustCastToUnsigned 64 (s.order_size_usd * 1000000)
  let hype_raw : Nat := rustCastToUnsigned 128 (hype_amount * 10 ^ 18)
  if buy_dex then
    let hl_sell_price := hl_price * (1 - s.slippage_bps / 10000)
    { dex_swap :=
        { token_in := s.usdc_address
          token_out := s.hype_address
          fee := s.dex_fee
          amount_in := usdc_raw
          amount_out_min := 0 }
      hl_order :=
        { coin := "HYPE/USDC"
          is_buy := false
          size := hype_amount
          limit_px := hl_sell_price }
      direction := "Buy DEX" }
  else
    let hl_buy_price := hl_price * (1 + s.slippage_bps / 10000)
    { dex_swap :=
        { token_in := s.hype_address
          token_out := s.usdc_address
          fee := s.dex_fee
          amount_in := hype_raw
          amount_out_min := 0 }
      hl_order :=
        { coin := "HYPE/USDC"
          is_buy := true
          size := hype_amount
          limit_px := hl_buy_price }
      direction := "Buy HL" }

/-- `check_and_generate_actions`: needs both snapshot slots; computes both
venues' fee-adjusted bid/ask; evaluates direction 1 (buy DEX ask, sell HL bid)
then direction 2 (buy HL ask, sell DEX bid); emits the first direction whose
net profit strictly exceeds `min_profit_bps`, else nothing. -/
def check_and_generate_actions (s : HypeUsdcCrossArbitrage) :
    List ArbitrageAction :=
  match s.hyperliquid_bbo, s.hyperswap_state with
  | some hl_bbo, some dex_state =>
    match s.calculate_dex_bid_ask dex_state with
    | none => []
    | some (dex_bid, dex_ask) =>
      match s.get_hyperliquid_prices hl_bbo with
      | none => []
      | some (hl_bid, hl_ask) =>
        let net_profit_1_bps := s.calculate_net_profit_bps dex_ask hl_bid
        let net_profit_2_bps := s.calculate_net_profit_bps hl_ask dex_bid
        if net_profit_1_bps > s.min_profit_bps then
          [s.generate_action true dex_ask hl_bid]
        else if net_profit_2_bps > s.min_profit_bps then
          [s.generate_action false dex_bid hl_ask]
        else []
  | _, _ => []

/-- `process_event` (the `Strategy` trait impl): store the event's payload in
its venue slot, then check for opportunities.  Returns the updated strategy
state together with the emitted actions. -/
def process_event (s : HypeUsdcCrossArbitrage) (event : Event) :
    HypeUsdcCrossArbitrage × List ArbitrageAction :=
  let s' :=
    match event with
    | .PoolUpdate state => { s with hyperswap_state := some state }
    | .HyperliquidBbo bbo => { s with hyperliquid_bbo := some bbo }
  (s', s'.check_and_generate_actions)

end HypeUsdcCrossArbitrage

/-! ## executors/hyperliquid.rs — HyperliquidExecutor::execute

The network effects (exchange client construction, asset-metadata fetch, the
order round-trip) are the external CEX wire client; we parametrize by their
outcomes.  `sz_decimals` is the size-decimals value the metadata lookup
produced (the source defaults it to 1 when the asset is missing). -/

/-- Outcomes of the network interactions inside one
`HyperliquidExecutor::execute` call: `setup` covers client construction and
the metadata fetch (`some e` = one of those `await?`s failed), `orderStatus`
is the exchange's response to the submitted order (`none` = accepted `Ok`,
`some e` = `ExchangeResponseStatus::Err`). -/
structure HlEnv where
  setup : Option Err
  sz_decimals : Nat
  orderStatus : Option Err
deriving DecidableEq, Repr

/-- Result of one `HyperliquidExecutor::execute` call: whether an order was
submitted to the venue, and the returned `Result`. -/
structure HlOutcome where
  submitted : Bool
  result : RustResult
deriving DecidableEq, Repr

/-- Error value standing for the source's
`anyhow::bail!("Order value ... below HL minimum")`. -/
def belowMinimumErr : Err := 1000000

/-- The venue-rounded order size:
`(action.size * size_multiplier).round() / size_multiplier` with
`size_multiplier = 10^sz_decimals`. -/
def hlRoundedSize (sz_decimals : Nat) (size : ℚ) : ℚ :=
  let size_multiplier : ℚ := 10 ^ sz_decimals
  (rustRound (size * size_multiplier) : ℚ) / size_multiplier

/-- The venue-rounded limit price:
`(action.limit_px / tick_size).round() * tick_size` with the hardcoded
`tick_size = 0.001`. -/
def hlRoundedPrice (limit_px : ℚ) : ℚ :=
  let tick_size : ℚ := 1 / 1000
  (rustRound (limit_px / tick_size) : ℚ) * tick_size

/-- The order's notional after venue rounding:
`rounded_size * rounded_price`. -/
def hlOrderValue (sz_decimals : Nat) (action : HyperliquidOrderAction) : ℚ :=
  hlRoundedSize sz_decimals action.size * hlRoundedPrice action.limit_px

/-- `HyperliquidExecutor::execute`: after client/metadata setup, rounds the
size to `sz_decimals` decimals and the limit price to the 0.001 tick, and
rejects the order before submission when the rounded notional
`rounded_size * rounded_price` is below 10.0 USD; otherwise submits and maps
the exchange response to `Ok`/`Err`. -/
def HyperliquidExecutor.execute (env : HlEnv) (action : HyperliquidOrderAction) :
    HlOutcome :=
  match env.setup with
  | some e => { submitted := false, result := .err e }
  | none =>
    if hlOrderValue env.sz_decimals action < 10 then
      { submitted := false, result := .err belowMinimumErr }
    else
      match env.orderStatus with
      | none => { submitted := true, result := .ok }
      | some e => { submitted := true, result := .err e }

/-! ## Concrete fixtures used by witnesses and counterexamples -/

/-- A concrete arbitrage action (parameters are irrelevant to the composite
executor's control flow). -/
def sampleAction : ArbitrageAction :=
  { dex_swap :=
      { token_in := 1, token_out := 2, fee := 3000
        amount_in := 20000000, amount_out_min := 0 }
    hl_order :=
      { coin := "HYPE/USDC", is_buy := false, size := 20, limit_px := 1 }
    direction := "Buy DEX" }

/-- A concrete strategy configuration: order size 20 USD, zero maker fee,
zero gas, 10 bps minimum profit, 50 bps slippage. -/
def sampleStrat : HypeUsdcCrossArbitrage :=
  { hyperliquid_bbo := none
    hyperswap_state := none
    order_size_usd := 20
    hl_maker_fee_bps := 0
    dex_gas_fee_usd := 0
    min_profit_bps := 10
    slippage_bps := 50
    usdc_address := 1
    hype_address := 2
    dex_fee := 3000 }

/-- A pool snapshot at mid price 1 (sqrt price exactly 2^96), zero fee tier,
equal decimals. -/
def samplePool : UniV3PoolState :=
  { sqrt_price := 2 ^ 96, fee := 0, token_a_decimals := 18, token_b_decimals := 18 }

/-- A BBO snapshot with raw bid 2 and raw ask 1/2, so that (against
`samplePool`'s 1/1 DEX book) both arbitrage directions qualify. -/
def sampleBbo : HyperliquidBbo :=
  { coin := "HYPE/USDC"
    levels := [some ⟨some 2⟩, some ⟨some (1/2)⟩]
    time := 0 }

/-- `sampleStrat` with the DEX slot already populated by `samplePool`. -/
def sampleStratWithPool : HypeUsdcCrossArbitrage :=
  { sampleStrat with hyperswap_state := some samplePool }

/-! ## Governor lemmas -/

/-- One governor step preserves `available + held`. -/
theorem govStep_sum (s : GovSys) (op : GovOp) :
    (govStep s op).manager.available + (govStep s op).held =
      s.manager.available + s.held := by
  cases op with
  | tryStart =>
    by_cases h : s.manager.available = 0
    · simp [govStep, ExecutionManager.try_start, h]
    · simp [govStep, ExecutionManager.try_start, h]
      omega
  | releaseOne =>
    by_cases h : s.held = 0
    · simp [govStep, h]
    · simp [govStep, h, ExecutionManager.releasePermit]
      omega

/-- Along any run of the governor system, `available + held` is invariant. -/
theorem govRun_sum (s : GovSys) (ops : List GovOp) :
    (govRun s ops).manager.available + (govRun s ops).held =
      s.manager.available + s.held := by
  induction ops generalizing s with
  | nil => rfl
  | cons op rest ih =>
    simpa [govRun, List.foldl_cons, govStep_sum] using
      (govStep_sum s op ▸ ih (govStep s op))

/-- From a state with `a` available permits and `h` held, `k` successive
non-blocking acquires leave `a - k` available and `h + min k a` held (the
first `a` attempts succeed, the rest fail). -/
theorem govRun_replicate_tryStart (k : Nat) :
    ∀ (a h : Nat),
      govRun ⟨⟨a⟩, h⟩ (List.replicate k .tryStart) = ⟨⟨a - k⟩, h + min k a⟩ := by
  induction k with
  | zero => intro a h; simp [govRun]
  | succ k ih =>
    intro a h
    rw [List.replicate_succ]
    by_cases ha : a = 0
    · subst ha
      simp only [govRun, List.foldl_cons]
      have hstep : govStep ⟨⟨0⟩, h⟩ .tryStart = ⟨⟨0⟩, h⟩ := by
        simp [govStep, ExecutionManager.try_start]
      rw [show (List.foldl govStep (govStep ⟨⟨0⟩, h⟩ GovOp.tryStart)
            (List.replicate k GovOp.tryStart)) =
          govRun (govStep ⟨⟨0⟩, h⟩ GovOp.tryStart) (List.replicate k GovOp.tryStart) from rfl]
      rw [hstep, ih 0 h]
      simp
    · simp only [govRun, List.foldl_cons]
      have hstep : govStep ⟨⟨a⟩, h⟩ .tryStart = ⟨⟨a - 1⟩, h + 1⟩ := by
        simp [govStep, ExecutionManager.try_start, ha]
      rw [show (List.foldl govStep (govStep ⟨⟨a⟩, h⟩ GovOp.tryStart)
            (List.replicate k GovOp.tryStart)) =
          govRun (govStep ⟨⟨a⟩, h⟩ GovOp.tryStart) (List.replicate k GovOp.tryStart) from rfl]
      rw [hstep, ih (a - 1) (h + 1)]
      have : a - 1 - k = a - (k + 1) := by omega
      rw [this]
      have : h + 1 + min k (a - 1) = h + min (k + 1) a := by omega
      rw [this]

/-- C5: For the execution governor created with capacity N: (i) along any
sequence of acquires/releases, the number of concurrently held permits never
exceeds N; (ii) whenever all N permits are held, a further `try_start`
returns `none` immediately (the model is a total function — there is no
blocking or queueing); (iii) N successive `try_start` calls from the free
state all succeed, leaving N permits held; (iv) from any reachable state in
which at least one permit is held, releasing one permit makes the next
`try_start` succeed. -/
theorem C5_governor_capacity (N : Nat) (ops : List GovOp) :
    (govRun (GovSys.init N) ops).held ≤ N ∧
    ((govRun (GovSys.init N) ops).held = N →
      ((govRun (GovSys.init N) ops).manager.try_start).1 = none) ∧
    (govRun (GovSys.init N) (List.replicate N .tryStart)).held = N ∧
    (0 < (govRun (GovSys.init N) ops).held →
      ((govStep (govRun (GovSys.init N) ops) .releaseOne).manager.try_start).1.isSome = true) := by
  have hsum := govRun_sum (GovSys.init N) ops
  rw [show (GovSys.init N).manager.available = N from rfl,
      show (GovSys.init N).held = 0 from rfl] at hsum
  refine ⟨by omega, ?_, ?_, ?_⟩
  · intro hheld
    have hzero : (govRun (GovSys.init N) ops).manager.available = 0 := by omega
    simp [ExecutionManager.try_start, hzero]
  · rw [show GovSys.init N = (⟨⟨N⟩, 0⟩ : GovSys) from rfl,
        govRun_replicate_tryStart N N 0]
    simp
  · intro hheld
    have hne : ¬ (govRun (GovSys.init N) ops).held = 0 := by omega
    simp [govStep, hne, ExecutionManager.releasePermit, ExecutionManager.try_start]

/-- Witness for C5 at capacity 2 with two successful acquires: the held count
is within capacity, a third acquire fails, and after one release an acquire
succeeds again. -/
theorem C5_governor_capacity_witness :
    (govRun (GovSys.init 2) [GovOp.tryStart, GovOp.tryStart]).held ≤ 2 ∧
    ((govRun (GovSys.init 2) [GovOp.tryStart, GovOp.tryStart]).manager.try_start).1 = none ∧
    ((govStep (govRun (GovSys.init 2) [GovOp.tryStart, GovOp.tryStart])
        .releaseOne).manager.try_start).1.isSome = true :=
  ⟨(C5_governor_capacity 2 [GovOp.tryStart, GovOp.tryStart]).1,
   (C5_governor_capacity 2 [GovOp.tryStart, GovOp.tryStart]).2.1 (by decide),
   (C5_governor_capacity 2 [GovOp.tryStart, GovOp.tryStart]).2.2.2 (by decide)⟩

/-! ## Composite executor theorems -/

/-- C7: If no execution permit is available, `ArbitrageExecutor::execute`
returns `Ok` without attempting either leg: the returned result is success
and the effect trace is empty (in particular neither `dexExec` nor `cexExec`
occurs) — a silent skip, not an error. -/
theorem C7_no_permit_silent_skip (m : ExecutionManager) (a : ArbitrageAction)
    (dexRes cexRes : Option Err) (c : Nat) (h : m.available = 0) :
    (ArbitrageExecutor.execute m a dexRes cexRes c).result = .ok ∧
    (ArbitrageExecutor.execute m a dexRes cexRes c).steps = [] := by
  simp [ArbitrageExecutor.execute, ExecutionManager.try_start, h]

/-- Witness for C7: a fully-busy governor (0 available permits) makes a
concrete call return `Ok` with no leg executed. -/
theorem C7_no_permit_silent_skip_witness :
    (ArbitrageExecutor.execute ⟨0⟩ sampleAction (some 7) none 5).result = .ok ∧
    (ArbitrageExecutor.execute ⟨0⟩ sampleAction (some 7) none 5).steps = [] :=
  C7_no_permit_silent_skip ⟨0⟩ sampleAction (some 7) none 5 rfl

/-- C6: If a permit is held and the DEX leg fails, the CEX leg is never
attempted (zero `cexExec` steps in the trace) and `execute` returns the DEX
leg's failure. -/
theorem C6_dex_failure_skips_cex (m : ExecutionManager) (a : ArbitrageAction)
    (e : Err) (cexRes : Option Err) (c : Nat) (h : 0 < m.available) :
    (ArbitrageExecutor.execute m a (some e) cexRes c).steps.count ExecStep.cexExec = 0 ∧
    (ArbitrageExecutor.execute m a (some e) cexRes c).result = .err e := by
  have h0 : ¬ m.available = 0 := by omega
  simp [ArbitrageExecutor.execute, ExecutionManager.try_start, h0, List.count_cons]

/-- Witness for C6: with one available permit and a failing DEX leg, a
concrete call records zero CEX invocations and returns the failure. -/
theorem C6_dex_failure_skips_cex_witness :
    (ArbitrageExecutor.execute ⟨1⟩ sampleAction (some 7) none 5).steps.count
        ExecStep.cexExec = 0 ∧
    (ArbitrageExecutor.execute ⟨1⟩ sampleAction (some 7) none 5).result = .err 7 :=
  C6_dex_failure_skips_cex ⟨1⟩ sampleAction 7 none 5 (by decide)

/-- C1: If a permit is acquired, the DEX leg succeeds and the CEX leg fails,
`execute` returns a failure whose observable outcome carries the one-sided
tag (the source's "⚠️ ONE-SIDED!" log marker), and no execution in which the
DEX leg itself fails can produce that outcome: the two failure modes are
distinguishable. -/
theorem C1_cex_failure_distinct_from_dex_failure (m : ExecutionManager)
    (a : ArbitrageAction) (e : Err) (c : Nat) (h : 0 < m.available) :
    (ArbitrageExecutor.execute m a none (some e) c).result = .err e ∧
    LogEvent.hlFailedOneSided e ∈ (ArbitrageExecutor.execute m a none (some e) c).logs ∧
    (∀ (m₂ : ExecutionManager) (a₂ : ArbitrageAction) (e₂ : Err)
        (cexRes₂ : Option Err) (c₂ : Nat),
      ArbitrageExecutor.execute m₂ a₂ (some e₂) cexRes₂ c₂ ≠
        ArbitrageExecutor.execute m a none (some e) c) := by
  have h0 : ¬ m.available = 0 := by omega
  refine ⟨?_, ?_, ?_⟩
  · simp [ArbitrageExecutor.execute, ExecutionManager.try_start, h0]
  · simp [ArbitrageExecutor.execute, ExecutionManager.try_start, h0]
  · intro m₂ a₂ e₂ cexRes₂ c₂ heq
    have hlogs := congrArg ExecOutcome.logs heq
    have hres := congrArg ExecOutcome.result heq
    by_cases h2 : m₂.available = 0
    · simp [ArbitrageExecutor.execute, ExecutionManager.try_start, h0, h2] at hres
    · simp [ArbitrageExecutor.execute, ExecutionManager.try_start, h0, h2] at hlogs
/-- Witness for C1: with one available permit, DEX success and CEX failure, a
concrete call returns the failure, its outcome carries the one-sided tag, and
a concrete DEX-failure call produces a different outcome. -/
theorem C1_cex_failure_distinct_from_dex_failure_witness :
    (ArbitrageExecutor.execute ⟨1⟩ sampleAction none (some 7) 5).result = .err 7 ∧
    LogEvent.hlFailedOneSided 7 ∈
      (ArbitrageExecutor.execute ⟨1⟩ sampleAction none (some 7) 5).logs ∧
    ArbitrageExecutor.execute ⟨1⟩ sampleAction (some 7) none 5 ≠
      ArbitrageExecutor.execute ⟨1⟩ sampleAction none (some 7) 5 :=
  ⟨(C1_cex_failure_distinct_from_dex_failure ⟨1⟩ sampleAction 7 5 (by decide)).1,
   (C1_cex_failure_distinct_from_dex_failure ⟨1⟩ sampleAction 7 5 (by decide)).2.1,
   (C1_cex_failure_distinct_from_dex_failure ⟨1⟩ sampleAction 7 5 (by decide)).2.2
     ⟨1⟩ sampleAction 7 none 5⟩

/-- C2, counterexample: the claim says the permit release happens only after
the cooldown delay has been held, on every exit path.  In the source, the
failure paths return early and the RAII drop releases the permit immediately:
here a concrete permit-holding execution whose DEX leg fails releases the
permit with no sleep step at all in its trace (cooldown configured at 5s). -/
theorem C2_counterexample_release_without_cooldown :
    ExecStep.releasePermit ∈
      (ArbitrageExecutor.execute ⟨1⟩ sampleAction (some 7) none 5).steps ∧
    ∀ t, ExecStep.sleep t ∉
      (ArbitrageExecutor.execute ⟨1⟩ sampleAction (some 7) none 5).steps := by
  constructor
  · simp [ArbitrageExecutor.execute, ExecutionManager.try_start]
  · intro t
    simp [ArbitrageExecutor.execute, ExecutionManager.try_start]

/-- C2, amended: for every execution attempt that acquires a permit, the
permit is released on every exit path — the release is the last effect of
the call and the governor's permit count is fully restored — and the
cooldown is held before release on the full-success path only: a sleep step
occurs in the trace exactly when both legs succeeded, in which case the trace
is acquire, DEX leg, CEX leg, sleep(cooldown), release.  On either leg's
failure the release is immediate, with no cooldown. -/
theorem C2_amended_release_on_every_path (m : ExecutionManager)
    (a : ArbitrageAction) (dexRes cexRes : Option Err) (c : Nat)
    (h : 0 < m.available) :
    (ArbitrageExecutor.execute m a dexRes cexRes c).steps.getLast? =
      some ExecStep.releasePermit ∧
    (ArbitrageExecutor.execute m a dexRes cexRes c).managerAfter = m ∧
    (dexRes = none → cexRes = none →
      (ArbitrageExecutor.execute m a dexRes cexRes c).steps =
        [ExecStep.acquirePermit, ExecStep.dexExec, ExecStep.cexExec,
         ExecStep.sleep c, ExecStep.releasePermit]) ∧
    (∀ t, ExecStep.sleep t ∈ (ArbitrageExecutor.execute m a dexRes cexRes c).steps →
      dexRes = none ∧ cexRes = none ∧ t = c) := by
  have h0 : ¬ m.available = 0 := by omega
  have hm : ExecutionManager.releasePermit ⟨m.available - 1⟩ = m := by
    have hadd : m.available - 1 + 1 = m.available := by omega
    calc ExecutionManager.releasePermit ⟨m.available - 1⟩
        = ⟨m.available - 1 + 1⟩ := rfl
      _ = ⟨m.available⟩ := by rw [hadd]
      _ = m := rfl
  cases dexRes with
  | some e =>
    refine ⟨?_, ?_, by simp, ?_⟩
    · simp [ArbitrageExecutor.execute, ExecutionManager.try_start, h0]
    · simpa [ArbitrageExecutor.execute, ExecutionManager.try_start, h0] using hm
    · intro t ht
      simp [ArbitrageExecutor.execute, ExecutionManager.try_start, h0] at ht
  | none =>
    cases cexRes with
    | some e =>
      refine ⟨?_, ?_, by simp, ?_⟩
      · simp [ArbitrageExecutor.execute, ExecutionManager.try_start, h0]
      · simpa [ArbitrageExecutor.execute, ExecutionManager.try_start, h0] using hm
      · intro t ht
        simp [ArbitrageExecutor.execute, ExecutionManager.try_start, h0] at ht
    | none =>
      refine ⟨?_, ?_, ?_, ?_⟩
      · simp [ArbitrageExecutor.execute, ExecutionManager.try_start, h0]
      · simpa [ArbitrageExecutor.execute, ExecutionManager.try_start, h0] using hm
      · intro _ _
        simp [ArbitrageExecutor.execute, ExecutionManager.try_start, h0]
      · intro t ht
        simp [ArbitrageExecutor.execute, ExecutionManager.try_start, h0] at ht
        exact ⟨rfl, rfl, ht⟩

/-- Witness for C2 (amended): a concrete full-success run releases the permit
last, restores the governor, and holds the 5s cooldown before the release;
and its only sleep is the cooldown. -/
theorem C2_amended_release_on_every_path_witness :
    (ArbitrageExecutor.execute ⟨1⟩ sampleAction none none 5).steps.getLast? =
      some ExecStep.releasePermit ∧
    (ArbitrageExecutor.execute ⟨1⟩ sampleAction none none 5).managerAfter = ⟨1⟩ ∧
    (ArbitrageExecutor.execute ⟨1⟩ sampleAction none none 5).steps =
      [ExecStep.acquirePermit, ExecStep.dexExec, ExecStep.cexExec,
       ExecStep.sleep 5, ExecStep.releasePermit] :=
  ⟨(C2_amended_release_on_every_path ⟨1⟩ sampleAction none none 5 (by decide)).1,
   (C2_amended_release_on_every_path ⟨1⟩ sampleAction none none 5 (by decide)).2.1,
   (C2_amended_release_on_every_path ⟨1⟩ sampleAction none none 5 (by decide)).2.2.1
     rfl rfl⟩

/-! ## Strategy lemmas -/

namespace HypeUsdcCrossArbitrage

/-- `process_event` only writes the snapshot slots: every configuration field
of the strategy is unchanged. -/
theorem process_event_config (s : HypeUsdcCrossArbitrage) (e : Event) :
    ((s.process_event e).1).order_size_usd = s.order_size_usd ∧
    ((s.process_event e).1).hl_maker_fee_bps = s.hl_maker_fee_bps ∧
    ((s.process_event e).1).dex_gas_fee_usd = s.dex_gas_fee_usd ∧
    ((s.process_event e).1).min_profit_bps = s.min_profit_bps ∧
    ((s.process_event e).1).slippage_bps = s.slippage_bps := by
  cases e <;> exact ⟨rfl, rfl, rfl, rfl, rfl⟩

/-- The actions returned by `process_event` are exactly
`check_and_generate_actions` of the updated state. -/
theorem process_event_snd (s : HypeUsdcCrossArbitrage) (e : Event) :
    (s.process_event e).2 = ((s.process_event e).1).check_and_generate_actions := by
  cases e <;> rfl

/-- Characterization of `check_and_generate_actions` when both slots are
populated and both venues produced prices: its result is the source's
two-branch decision on the net profits. -/
theorem check_eq_of_prices (s : HypeUsdcCrossArbitrage)
    (hl_bbo : HyperliquidBbo) (dex_state : UniV3PoolState)
    (dex_bid dex_ask hl_bid hl_ask : ℚ)
    (hb : s.hyperliquid_bbo = some hl_bbo)
    (hd : s.hyperswap_state = some dex_state)
    (hc : s.calculate_dex_bid_ask dex_state = some (dex_bid, dex_ask))
    (hh : s.get_hyperliquid_prices hl_bbo = some (hl_bid, hl_ask)) :
    s.check_and_generate_actions =
      if s.calculate_net_profit_bps dex_ask hl_bid > s.min_profit_bps then
        [s.generate_action true dex_ask hl_bid]
      else if s.calculate_net_profit_bps hl_ask dex_bid > s.min_profit_bps then
        [s.generate_action false dex_bid hl_ask]
      else [] := by
  simp [check_and_generate_actions, hb, hd, hc, hh]

/-- Shape of `check_and_generate_actions`: either no action, or exactly one
action produced by `generate_action` for a direction whose net profit is
strictly above the threshold (direction 1 taking priority). -/
theorem check_shape (s : HypeUsdcCrossArbitrage) :
    s.check_and_generate_actions = [] ∨
    ∃ hl_bbo dex_state dex_bid dex_ask hl_bid hl_ask,
      s.hyperliquid_bbo = some hl_bbo ∧
      s.hyperswap_state = some dex_state ∧
      s.calculate_dex_bid_ask dex_state = some (dex_bid, dex_ask) ∧
      s.get_hyperliquid_prices hl_bbo = some (hl_bid, hl_ask) ∧
      ((s.calculate_net_profit_bps dex_ask hl_bid > s.min_profit_bps ∧
        s.check_and_generate_actions = [s.generate_action true dex_ask hl_bid]) ∨
       (¬ s.calculate_net_profit_bps dex_ask hl_bid > s.min_profit_bps ∧
        s.calculate_net_profit_bps hl_ask dex_bid > s.min_profit_bps ∧
        s.check_and_generate_actions = [s.generate_action false dex_bid hl_ask])) := by
  rcases hb : s.hyperliquid_bbo with _ | hl_bbo
  · left; simp [check_and_generate_actions, hb]
  rcases hd : s.hyperswap_state with _ | dex_state
  · left; simp [check_and_generate_actions, hb, hd]
  rcases hc : s.calculate_dex_bid_ask dex_state with _ | ⟨dex_bid, dex_ask⟩
  · left; simp [check_and_generate_actions, hb, hd, hc]
  rcases hh : s.get_hyperliquid_prices hl_bbo with _ | ⟨hl_bid, hl_ask⟩
  · left; simp [check_and_generate_actions, hb, hd, hc, hh]
  by_cases h1 : s.calculate_net_profit_bps dex_ask hl_bid > s.min_profit_bps
  · right
    exact ⟨hl_bbo, dex_state, dex_bid, dex_ask, hl_bid, hl_ask, rfl, rfl, hc, hh,
      Or.inl ⟨h1, by rw [check_eq_of_prices s hl_bbo dex_state _ _ _ _ hb hd hc hh,
        if_pos h1]⟩⟩
  by_cases h2 : s.calculate_net_profit_bps hl_ask dex_bid > s.min_profit_bps
  · right
    exact ⟨hl_bbo, dex_state, dex_bid, dex_ask, hl_bid, hl_ask, rfl, rfl, hc, hh,
      Or.inr ⟨h1, h2, by rw [check_eq_of_prices s hl_bbo dex_state _ _ _ _ hb hd hc hh,
        if_neg h1, if_pos h2]⟩⟩
  · left
    rw [check_eq_of_prices s hl_bbo dex_state _ _ _ _ hb hd hc hh, if_neg h1, if_neg h2]

/-- `generate_action` with `buy_dex = true` is tagged "Buy DEX" (direction 1,
buy DEX / sell CEX). -/
theorem generate_action_true_direction (s : HypeUsdcCrossArbitrage) (p q : ℚ) :
    (s.generate_action true p q).direction = "Buy DEX" := rfl

end HypeUsdcCrossArbitrage

open HypeUsdcCrossArbitrage in
/-- C3: `process_event` returns at most one action; an action is returned
only when both snapshot slots are populated (and both venues yield prices)
with that action's direction's net profit strictly above the configured
minimum; and when both directions qualify on the same event, the emitted
action is direction 1 ("Buy DEX": buy DEX, sell CEX). -/
theorem C3_single_action_threshold_priority
    (s : HypeUsdcCrossArbitrage) (e : Event) :
    (s.process_event e).2.length ≤ 1 ∧
    (∀ a ∈ (s.process_event e).2,
      ∃ hl_bbo dex_state dex_bid dex_ask hl_bid hl_ask,
        (s.process_event e).1.hyperliquid_bbo = some hl_bbo ∧
        (s.process_event e).1.hyperswap_state = some dex_state ∧
        (s.process_event e).1.calculate_dex_bid_ask dex_state = some (dex_bid, dex_ask) ∧
        (s.process_event e).1.get_hyperliquid_prices hl_bbo = some (hl_bid, hl_ask) ∧
        ((a = (s.process_event e).1.generate_action true dex_ask hl_bid ∧
          (s.process_event e).1.calculate_net_profit_bps dex_ask hl_bid > s.min_profit_bps) ∨
         (a = (s.process_event e).1.generate_action false dex_bid hl_ask ∧
          (s.process_event e).1.calculate_net_profit_bps hl_ask dex_bid > s.min_profit_bps))) ∧
    (∀ hl_bbo dex_state dex_bid dex_ask hl_bid hl_ask,
      (s.process_event e).1.hyperliquid_bbo = some hl_bbo →
      (s.process_event e).1.hyperswap_state = some dex_state →
      (s.process_event e).1.calculate_dex_bid_ask dex_state = some (dex_bid, dex_ask) →
      (s.process_event e).1.get_hyperliquid_prices hl_bbo = some (hl_bid, hl_ask) →
      (s.process_event e).1.calculate_net_profit_bps dex_ask hl_bid > s.min_profit_bps →
      (s.process_event e).1.calculate_net_profit_bps hl_ask dex_bid > s.min_profit_bps →
      (s.process_event e).2 =
        [(s.process_event e).1.generate_action true dex_ask hl_bid] ∧
      ∀ a ∈ (s.process_event e).2, a.direction = "Buy DEX") := by
  have hmin : (s.process_event e).1.min_profit_bps = s.min_profit_bps :=
    (process_event_config s e).2.2.2.1
  refine ⟨?_, ?_, ?_⟩
  · rw [process_event_snd]
    rcases check_shape (s.process_event e).1 with hnil |
      ⟨hl_bbo, dex_state, dex_bid, dex_ask, hl_bid, hl_ask, _, _, _, _,
        ⟨_, heq⟩ | ⟨_, _, heq⟩⟩
    · simp [hnil]
    · simp [heq]
    · simp [heq]
  · intro a ha
    rw [process_event_snd] at ha
    rcases check_shape (s.process_event e).1 with hnil |
      ⟨hl_bbo, dex_state, dex_bid, dex_ask, hl_bid, hl_ask, hb, hd, hc, hh,
        ⟨h1, heq⟩ | ⟨_, h2, heq⟩⟩
    · rw [hnil] at ha
      simp at ha
    · rw [heq] at ha
      simp only [List.mem_singleton] at ha
      exact ⟨hl_bbo, dex_state, dex_bid, dex_ask, hl_bid, hl_ask, hb, hd, hc, hh,
        Or.inl ⟨ha, hmin ▸ h1⟩⟩
    · rw [heq] at ha
      simp only [List.mem_singleton] at ha
      exact ⟨hl_bbo, dex_state, dex_bid, dex_ask, hl_bid, hl_ask, hb, hd, hc, hh,
        Or.inr ⟨ha, hmin ▸ h2⟩⟩
  · intro hl_bbo dex_state dex_bid dex_ask hl_bid hl_ask hb hd hc hh h1 h2
    rw [process_event_snd,
      check_eq_of_prices (s.process_event e).1 hl_bbo dex_state
        dex_bid dex_ask hl_bid hl_ask hb hd hc hh, hmin, if_pos h1]
    refine ⟨rfl, ?_⟩
    intro a ha
    simp only [List.mem_singleton] at ha
    rw [ha, generate_action_true_direction]

open HypeUsdcCrossArbitrage in
/-- Witness for C3: with a populated DEX book of 1/1 and a CEX book of
bid 2 / ask 1/2 (both directions net ≥ 10000 bps, above the 10 bps
threshold), the event yields exactly the direction-1 action. -/
theorem C3_single_action_threshold_priority_witness :
    (sampleStratWithPool.process_event (Event.HyperliquidBbo sampleBbo)).2 =
      [(sampleStratWithPool.process_event
          (Event.HyperliquidBbo sampleBbo)).1.generate_action true 1 2] ∧
    ∀ a ∈ (sampleStratWithPool.process_event (Event.HyperliquidBbo sampleBbo)).2,
      a.direction = "Buy DEX" :=
  (C3_single_action_threshold_priority sampleStratWithPool
      (Event.HyperliquidBbo sampleBbo)).2.2
    sampleBbo samplePool 1 1 2 (1/2)
    rfl
    rfl
    (by norm_num [calculate_dex_bid_ask, process_event, sampleStratWithPool,
          sampleStrat, samplePool])
    (by norm_num [get_hyperliquid_prices, process_event, sampleStratWithPool,
          sampleStrat, sampleBbo])
    (by norm_num [calculate_net_profit_bps, process_event, sampleStratWithPool,
          sampleStrat])
    (by norm_num [calculate_net_profit_bps, process_event, sampleStratWithPool,
          sampleStrat])

/-- As stated by the spec (§4.4): the DEX mid price recovers the pool's
fixed-point square-root price, squares it, undoes the 2^96 scale and applies
the decimal adjustment; then half the ppm fee per side. -/
def specDexBidAsk (state : UniV3PoolState) : ℚ × ℚ :=
  let mid : ℚ := ((state.sqrt_price : ℚ) / 2 ^ 96) ^ 2 *
    (10 : ℚ) ^ ((state.token_a_decimals : ℤ) - (state.token_b_decimals : ℤ))
  let fee : ℚ := (state.fee : ℚ) / 1000000
  (mid * (1 - fee / 2), mid * (1 + fee / 2))

/-- A pool state whose sqrt price does not fit in 128 bits (sqrt prices are
`uint160` on chain, so such states exist). -/
def overflowPool : UniV3PoolState :=
  { sqrt_price := 2 ^ 128, fee := 0, token_a_decimals := 18, token_b_decimals := 18 }

open HypeUsdcCrossArbitrage in
/-- Counterexample to C4 as stated: for the pool state with
`sqrt_price = 2^128` (zero fee, equal decimals) the spec formula gives
mid = (2^128/2^96)^2 = 2^64, but the code rebuilds the square-root price from
only the low 16 of the 32 big-endian bytes — `sqrt_price mod 2^128 = 0` —
and returns bid = ask = 0. -/
theorem C4_counterexample_sqrt_price_truncated :
    sampleStrat.calculate_dex_bid_ask overflowPool ≠ some (specDexBidAsk overflowPool) := by
  have h1 : sampleStrat.calculate_dex_bid_ask overflowPool = some (0, 0) := by
    norm_num [calculate_dex_bid_ask, overflowPool]
  have h2 : specDexBidAsk overflowPool = ((2 : ℚ) ^ 64, (2 : ℚ) ^ 64) := by
    norm_num [specDexBidAsk, overflowPool]
  rw [h1, h2]
  intro hcontra
  rw [Option.some.injEq, Prod.mk.injEq] at hcontra
  norm_num at hcontra

open HypeUsdcCrossArbitrage in
/-- C4 as amended: whenever the pool's sqrt price fits in 128 bits (so the
source's byte-level truncation to `u128` is lossless), the strategy's
computed bid/ask equal exactly the spec's
mid·(1 − fee/2) / mid·(1 + fee/2) with
mid = (sqrtPrice/2^96)² · 10^(decimalsA − decimalsB). -/
theorem C4_amended_dex_bid_ask (s : HypeUsdcCrossArbitrage)
    (state : UniV3PoolState) (h : state.sqrt_price < 2 ^ 128) :
    s.calculate_dex_bid_ask state = some (specDexBidAsk state) := by
  simp only [calculate_dex_bid_ask, specDexBidAsk]
  rw [Nat.mod_eq_of_lt h]

open HypeUsdcCrossArbitrage in
/-- Witness for C4 (amended) at `samplePool` (sqrt price 2^96 < 2^128). -/
theorem C4_amended_dex_bid_ask_witness :
    sampleStrat.calculate_dex_bid_ask samplePool = some (specDexBidAsk samplePool) :=
  C4_amended_dex_bid_ask sampleStrat samplePool (by norm_num [samplePool])

namespace HypeUsdcCrossArbitrage

/-- Both branches of `generate_action` submit the DEX leg with a zero
minimum-output guard (`U256::ZERO`). -/
theorem generate_action_amount_out_min (s : HypeUsdcCrossArbitrage)
    (b : Bool) (p q : ℚ) :
    (s.generate_action b p q).dex_swap.amount_out_min = 0 := by
  cases b <;> rfl

/-- Direction 1 (`buy_dex = true`): the CEX leg sells, at
`hl_price · (1 − slippage_bps/10000)`. -/
theorem generate_action_true_hl (s : HypeUsdcCrossArbitrage) (p q : ℚ) :
    (s.generate_action true p q).hl_order.is_buy = false ∧
    (s.generate_action true p q).hl_order.limit_px =
      q * (1 - s.slippage_bps / 10000) :=
  ⟨rfl, rfl⟩

/-- Direction 2 (`buy_dex = false`): the CEX leg buys, at
`hl_price · (1 + slippage_bps/10000)`. -/
theorem generate_action_false_hl (s : HypeUsdcCrossArbitrage) (p q : ℚ) :
    (s.generate_action false p q).hl_order.is_buy = true ∧
    (s.generate_action false p q).hl_order.limit_px =
      q * (1 + s.slippage_bps / 10000) :=
  ⟨rfl, rfl⟩

end HypeUsdcCrossArbitrage

open HypeUsdcCrossArbitrage in
/-- C8: every action the strategy emits carries a zero DEX minimum-output
guard, and slippage is applied only to the CEX leg's limit price, against the
taker in the fill direction: when the CEX leg sells the limit is the CEX bid
times (1 − slippageBps/10000), when it buys the limit is the CEX ask times
(1 + slippageBps/10000). -/
theorem C8_slippage_cex_leg_only (s : HypeUsdcCrossArbitrage) (e : Event)
    (a : ArbitrageAction) (ha : a ∈ (s.process_event e).2) :
    a.dex_swap.amount_out_min = 0 ∧
    ∃ hl_bbo dex_state dex_bid dex_ask hl_bid hl_ask,
      (s.process_event e).1.hyperliquid_bbo = some hl_bbo ∧
      (s.process_event e).1.hyperswap_state = some dex_state ∧
      (s.process_event e).1.calculate_dex_bid_ask dex_state = some (dex_bid, dex_ask) ∧
      (s.process_event e).1.get_hyperliquid_prices hl_bbo = some (hl_bid, hl_ask) ∧
      ((a.hl_order.is_buy = false ∧
        a.hl_order.limit_px = hl_bid * (1 - s.slippage_bps / 10000)) ∨
       (a.hl_order.is_buy = true ∧
        a.hl_order.limit_px = hl_ask * (1 + s.slippage_bps / 10000))) := by
  have hslip : (s.process_event e).1.slippage_bps = s.slippage_bps :=
    (process_event_config s e).2.2.2.2
  rw [process_event_snd] at ha
  rcases check_shape (s.process_event e).1 with hnil |
    ⟨hl_bbo, dex_state, dex_bid, dex_ask, hl_bid, hl_ask, hb, hd, hc, hh,
      ⟨_, heq⟩ | ⟨_, _, heq⟩⟩
  · rw [hnil] at ha
    simp at ha
  · rw [heq] at ha
    simp only [List.mem_singleton] at ha
    subst ha
    exact ⟨generate_action_amount_out_min _ _ _ _,
      hl_bbo, dex_state, dex_bid, dex_ask, hl_bid, hl_ask, hb, hd, hc, hh,
      Or.inl ⟨(generate_action_true_hl _ _ _).1,
        hslip ▸ (generate_action_true_hl _ _ _).2⟩⟩
  · rw [heq] at ha
    simp only [List.mem_singleton] at ha
    subst ha
    exact ⟨generate_action_amount_out_min _ _ _ _,
      hl_bbo, dex_state, dex_bid, dex_ask, hl_bid, hl_ask, hb, hd, hc, hh,
      Or.inr ⟨(generate_action_false_hl _ _ _).1,
        hslip ▸ (generate_action_false_hl _ _ _).2⟩⟩

open HypeUsdcCrossArbitrage in
/-- Witness for C8: the concrete direction-1 action emitted in the
`sampleStratWithPool`/`sampleBbo` scenario has a zero DEX minimum-output
guard and a selling CEX leg priced below the CEX bid by the configured
slippage. -/
theorem C8_slippage_cex_leg_only_witness :
    ((sampleStratWithPool.process_event
        (Event.HyperliquidBbo sampleBbo)).1.generate_action true 1 2).dex_swap.amount_out_min = 0 ∧
    ∃ hl_bbo dex_state dex_bid dex_ask hl_bid hl_ask,
      (sampleStratWithPool.process_event
          (Event.HyperliquidBbo sampleBbo)).1.hyperliquid_bbo = some hl_bbo ∧
      (sampleStratWithPool.process_event
          (Event.HyperliquidBbo sampleBbo)).1.hyperswap_state = some dex_state ∧
      (sampleStratWithPool.process_event
          (Event.HyperliquidBbo sampleBbo)).1.calculate_dex_bid_ask dex_state =
        some (dex_bid, dex_ask) ∧
      (sampleStratWithPool.process_event
          (Event.HyperliquidBbo sampleBbo)).1.get_hyperliquid_prices hl_bbo =
        some (hl_bid, hl_ask) ∧
      ((((sampleStratWithPool.process_event
            (Event.HyperliquidBbo sampleBbo)).1.generate_action true 1 2).hl_order.is_buy = false ∧
        ((sampleStratWithPool.process_event
            (Event.HyperliquidBbo sampleBbo)).1.generate_action true 1 2).hl_order.limit_px =
          hl_bid * (1 - sampleStratWithPool.slippage_bps / 10000)) ∨
       (((sampleStratWithPool.process_event
            (Event.HyperliquidBbo sampleBbo)).1.generate_action true 1 2).hl_order.is_buy = true ∧
        ((sampleStratWithPool.process_event
            (Event.HyperliquidBbo sampleBbo)).1.generate_action true 1 2).hl_order.limit_px =
          hl_ask * (1 + sampleStratWithPool.slippage_bps / 10000))) :=
  C8_slippage_cex_leg_only sampleStratWithPool (Event.HyperliquidBbo sampleBbo)
    ((sampleStratWithPool.process_event
        (Event.HyperliquidBbo sampleBbo)).1.generate_action true 1 2)
    (by norm_num [process_event, check_and_generate_actions, calculate_dex_bid_ask,
      get_hyperliquid_prices, calculate_net_profit_bps, sampleStratWithPool,
      sampleStrat, samplePool, sampleBbo])

/-- A malformed CEX quote snapshot, in the claim's sense: fewer than two book
levels, or a missing (`None`) level at slot 0 or 1, or a level there whose
price string does not parse as a number. -/
def malformedBbo (b : HyperliquidBbo) : Prop :=
  b.levels.length < 2 ∨
  b.levels[0]? = some none ∨
  b.levels[1]? = some none ∨
  (∃ l, b.levels[0]? = some (some l) ∧ l.px = none) ∨
  (∃ l, b.levels[1]? = some (some l) ∧ l.px = none)

open HypeUsdcCrossArbitrage in
/-- On a malformed snapshot, `get_hyperliquid_prices` yields no prices. -/
theorem get_hyperliquid_prices_malformed (s : HypeUsdcCrossArbitrage)
    (b : HyperliquidBbo) (h : malformedBbo b) :
    s.get_hyperliquid_prices b = none := by
  by_cases hlen : b.levels.length < 2
  · simp [get_hyperliquid_prices, hlen]
  · rcases h0 : b.levels[0]? with _ | (_ | l0) <;>
      rcases h1 : b.levels[1]? with _ | (_ | l1) <;>
      simp only [get_hyperliquid_prices, hlen, if_false, h0, h1]
    rcases p0 : l0.px with _ | q0 <;> rcases p1 : l1.px with _ | q1 <;>
      simp only []
    rcases h with h | h | h | ⟨l, hl, hpx⟩ | ⟨l, hl, hpx⟩
    · exact absurd h hlen
    · rw [h0] at h; exact absurd h (by simp)
    · rw [h1] at h; exact absurd h (by simp)
    · rw [h0] at hl
      have : l0 = l := by injection hl with hl'; injection hl'
      rw [← this] at hpx
      rw [p0] at hpx
      exact absurd hpx (by simp)
    · rw [h1] at hl
      have : l1 = l := by injection hl with hl'; injection hl'
      rw [← this] at hpx
      rw [p1] at hpx
      exact absurd hpx (by simp)

open HypeUsdcCrossArbitrage in
/-- C9: processing a CEX quote snapshot with fewer than two levels, a missing
level, or an unparsable price emits zero actions.  (The embedding is a total
function, so "no failure or panic at `process_event`" holds by
construction.) -/
theorem C9_malformed_cex_snapshot_no_actions (s : HypeUsdcCrossArbitrage)
    (b : HyperliquidBbo) (h : malformedBbo b) :
    (s.process_event (Event.HyperliquidBbo b)).2 = [] := by
  rw [process_event_snd]
  have hb : (s.process_event (Event.HyperliquidBbo b)).1.hyperliquid_bbo = some b := rfl
  have hnone := get_hyperliquid_prices_malformed
    (s.process_event (Event.HyperliquidBbo b)).1 b h
  rcases hd : (s.process_event (Event.HyperliquidBbo b)).1.hyperswap_state
      with _ | dex_state
  · simp [check_and_generate_actions, hb, hd]
  · simp [check_and_generate_actions, hb, hd, hnone, calculate_dex_bid_ask]

/-- A BBO message with an empty book. -/
def emptyBbo : HyperliquidBbo :=
  { coin := "HYPE/USDC", levels := [], time := 0 }

open HypeUsdcCrossArbitrage in
/-- Witness for C9: an empty CEX book yields zero actions. -/
theorem C9_malformed_cex_snapshot_no_actions_witness :
    (sampleStratWithPool.process_event (Event.HyperliquidBbo emptyBbo)).2 = [] :=
  C9_malformed_cex_snapshot_no_actions sampleStratWithPool emptyBbo
    (Or.inl (by norm_num [emptyBbo]))

/-- C10: whenever the order's notional after venue rounding
(`rounded_size * rounded_price`) is below 10.0 USD, the CEX leg executor
returns an error without submitting any order — so such an action can never
complete its CEX leg. -/
theorem C10_below_min_notional_rejected (env : HlEnv)
    (action : HyperliquidOrderAction)
    (h : hlOrderValue env.sz_decimals action < 10) :
    (HyperliquidExecutor.execute env action).submitted = false ∧
    (HyperliquidExecutor.execute env action).result ≠ RustResult.ok := by
  cases hs : env.setup with
  | some e2 => simp [HyperliquidExecutor.execute, hs]
  | none => simp [HyperliquidExecutor.execute, hs, h]

/-- Witness for C10: an order of size 1 at limit price 5 (notional 5 USD,
with 1 size decimal and a healthy venue) is rejected unsubmitted. -/
theorem C10_below_min_notional_rejected_witness :
    (HyperliquidExecutor.execute ⟨none, 1, none⟩
      ⟨"HYPE/USDC", false, 1, 5⟩).submitted = false ∧
    (HyperliquidExecutor.execute ⟨none, 1, none⟩
      ⟨"HYPE/USDC", false, 1, 5⟩).result ≠ RustResult.ok :=
  C10_below_min_notional_rejected ⟨none, 1, none⟩ ⟨"HYPE/USDC", false, 1, 5⟩
    (by norm_num [hlOrderValue, hlRoundedSize, hlRoundedPrice, rustRound])

end RustyArb
